import Mathlib

/-!
# Ponzu command dispatcher and serve bootstrap

A shallow embedding of `cmd/ponzu/main.go`.  The function `main` of the source
is a straight-line dispatcher over the parsed command line; its only
interaction with the rest of the system is through calls on external
collaborators (config store, analytics, TLS manager, service registrars, the
scaffolder, the generator, the builder, the child process, the HTTP listener)
and through text written to standard output and to the fatal log.

The embedding makes that interaction explicit: `main` maps an invocation (the
flags and positional arguments left after `flag.Parse`) and a `World` (the
answers the collaborators give) to the ordered list of events the process
performs and to the way the process ends.

Go semantics that matter here:
* `os.Exit` terminates at once and does not run deferred functions;
* `log.Fatalln` writes its operands to the log and then calls `os.Exit(1)`;
* deferred functions run, last registered first, when `main` returns or panics;
* a process whose `main` returns exits with status 0, a panicking one with 2.
-/

namespace Ponzu

/-! ## Data model -/

/-- Values of the command-line flags after parsing (main.go lines 23-31, 39-45). -/
structure Flags where
  port : Int
  httpsport : Int
  https : Bool
  devhttps : Bool
  dev : Bool
  fork : String
  gocmd : String

/-- Flag defaults registered by `flag.IntVar` / `flag.BoolVar` / `flag.StringVar`
(main.go lines 39-45). -/
def defaultFlags : Flags :=
  { port := 8080, httpsport := 443, https := false, devhttps := false,
    dev := false, fork := "", gocmd := "go" }

/-- Parsed command line: the flags and `flag.Args()`. -/
structure Invocation where
  flags : Flags
  args : List String

/-- Usage constants of the package that `main` prints.  They are declared in
another file of the package, so they are parameters of the embedding. -/
structure UsageTexts where
  usageHeader : String
  usageNew : String
  usageGenerate : String
  usageBuild : String
  usageRun : String
  usageHelp : String

/-- Package variable `usage` (main.go line 22). -/
def UsageTexts.usage (u : UsageTexts) : String :=
  u.usageHeader ++ u.usageNew ++ u.usageGenerate ++ u.usageBuild ++ u.usageRun

/-- One observable step of the process, in program order. -/
inductive Event where
  | stdout (text : String)
  | logFatalln (text : String)
  | dbInit
  | dbClose
  | analyticsInit
  | analyticsClose
  | apiRun
  | adminRun
  | putConfig (key : String) (value : String)
  | configCache (key : String)
  | goTlsEnableDev
  | goTlsEnable
  | listenAndServe (addr : String)
  | newProjectInDir (dir : String)
  | generateContentType (args : List String)
  | buildPonzuServer (args : List String)
  | cmdStart (name : String) (args : List String)
  | cmdWait
  deriving DecidableEq, Repr

/-- How the process ends: with an exit status, or never (the listener keeps
serving and `http.ListenAndServe` does not return). -/
inductive Outcome where
  | exit (code : Nat)
  | serving
  deriving DecidableEq, Repr

/-- Control state at the end of the body of `main`. -/
inductive Ctl where
  | osExit (code : Nat)
  | ret
  | panicked
  | blocked
  deriving DecidableEq, Repr

/-- Answers of the external collaborators.  An `Option String` result is a Go
`error`: `none` is `nil`, `some e` is an error whose text is `e`.  For
`listenAndServe`, `none` stands for a listener that keeps serving, so that the
call does not return.  `config` is the content of the config cache when the
process starts.  Collaborator calls without a result (`db.Init`, `api.Run`,
...) are taken to return. -/
structure World where
  newProjectInDir : String → Option String
  generateContentType : List String → Option String
  buildPonzuServer : List String → Option String
  cmdStart : String → List String → Option String
  cmdWait : Option String
  putConfig : String → String → Option String
  config : List (String × String)
  listenAndServe : String → Option String

/-- Result of running the body of `main`: the events so far, the deferred calls
(most recently registered first) and the control state. -/
structure Body where
  trace : List Event
  deferred : List Event
  ctl : Ctl

/-- A finished run of the process. -/
structure Run where
  trace : List Event
  outcome : Outcome

/-! ## Library functions used by `main` -/

/-- Rendering of `fmt.Sprintf("%d", n)` for a Go `int`. -/
def sprintfD (n : Int) : String :=
  match n with
  | Int.ofNat m => Nat.repr m
  | Int.negSucc m => "-" ++ Nat.repr (m + 1)

/-- Text written by `fmt.Println(s)` for a single string operand. -/
def println (s : String) : Event :=
  Event.stdout (s ++ "\n")

/-- Worker of `stringsSplit`: `cur` holds the characters of the current field
in reverse. -/
def splitChars (sep : Char) : List Char → List Char → List (List Char)
  | [], cur => [cur.reverse]
  | c :: cs, cur =>
    if c = sep then cur.reverse :: splitChars sep cs []
    else splitChars sep cs (c :: cur)

/-- Model of `strings.Split(s, sep)` for a one-character separator: the fields
between the separators, in order; a string without separator gives one field. -/
def stringsSplit (s : String) (sep : Char) : List String :=
  (splitChars sep s.data []).map String.mk

/-- Rendering by `fmt.Println` of a `[]string` operand. -/
def fmtSlice (xs : List String) : String :=
  "[" ++ " ".intercalate xs ++ "]"

/-- Modelled from the spec: the config store of package `db`, which is not part
of the sources at hand.  A successful `PutConfig(key, value)` makes `value` the
entry the cache returns for `key`. -/
def cachePut (c : List (String × String)) (key value : String) : List (String × String) :=
  (key, value) :: c.filter (fun kv => kv.1 != key)

/-- Modelled from the spec: `db.ConfigCache(key)` of the absent package `db`,
a read of the cache; `none` is the `nil` interface value. -/
def cacheGet (c : List (String × String)) (key : String) : Option String :=
  (c.find? (fun kv => kv.1 == key)).map Prod.snd

/-! ## The program -/

/-- Case `help`, `h` (main.go lines 56-79); `rest` is `args[1:]`. -/
def mainHelp (u : UsageTexts) (rest : List String) : Body :=
  match rest with
  | [] => ⟨[println u.usageHelp, println u.usage], [], Ctl.osExit 0⟩
  | sub :: _ =>
    if sub = "new" then ⟨[println u.usageNew], [], Ctl.osExit 0⟩
    else if sub = "generate" ∨ sub = "gen" ∨ sub = "g" then
      ⟨[println u.usageGenerate], [], Ctl.osExit 0⟩
    else if sub = "build" then ⟨[println u.usageBuild], [], Ctl.osExit 0⟩
    else if sub = "run" then ⟨[println u.usageRun], [], Ctl.osExit 0⟩
    else ⟨[], [], Ctl.ret⟩

/-- Case `new` (main.go lines 81-91). -/
def mainNew (u : UsageTexts) (w : World) (rest : List String) : Body :=
  match rest with
  | [] => ⟨[println u.usageNew], [], Ctl.osExit 0⟩
  | dir :: _ =>
    match w.newProjectInDir dir with
    | some err => ⟨[Event.newProjectInDir dir, println err], [], Ctl.osExit 1⟩
    | none => ⟨[Event.newProjectInDir dir], [], Ctl.ret⟩

/-- Case `generate`, `gen`, `g` (main.go lines 93-110). -/
def mainGenerate (u : UsageTexts) (w : World) (rest : List String) : Body :=
  match rest with
  | kind :: a :: more =>
    if kind = "content" ∨ kind = "c" then
      match w.generateContentType (a :: more) with
      | some err => ⟨[Event.generateContentType (a :: more), println err], [], Ctl.osExit 1⟩
      | none => ⟨[Event.generateContentType (a :: more)], [], Ctl.ret⟩
    else ⟨[println ("Generator '" ++ kind ++ "' is not implemented.")], [], Ctl.ret⟩
  | _ => ⟨[println u.usageGenerate], [], Ctl.osExit 0⟩

/-- Case `build` (main.go lines 112-117); `args` is the whole argument list. -/
def mainBuild (w : World) (args : List String) : Body :=
  match w.buildPonzuServer args with
  | some err => ⟨[Event.buildPonzuServer args, println err], [], Ctl.osExit 1⟩
  | none => ⟨[Event.buildPonzuServer args], [], Ctl.ret⟩

/-- Variable `addTLS` of case `run` (main.go lines 121-130). -/
def addTLS (f : Flags) : String :=
  let a := if f.https then "--https" else "--https=false"
  if f.devhttps then "--devhttps" else a

/-- Variable `services` of case `run` (main.go lines 132-137). -/
def runServices (rest : List String) : String :=
  match rest with
  | s :: _ => s
  | [] => "admin,api"

/-- Arguments given to `exec.Command("./ponzu-server", ...)` (main.go lines 141-147). -/
def runArgs (f : Flags) (rest : List String) : List String :=
  ["--port=" ++ sprintfD f.port, "--httpsport=" ++ sprintfD f.httpsport, addTLS f, "serve",
    runServices rest]

/-- Case `run` (main.go lines 119-163). -/
def mainRun (w : World) (f : Flags) (rest : List String) : Body :=
  let t0 := [println "Running..", println ("services: " ++ runServices rest),
    Event.cmdStart "./ponzu-server" (runArgs f rest)]
  match w.cmdStart "./ponzu-server" (runArgs f rest) with
  | some err => ⟨t0 ++ [println err], [], Ctl.osExit 1⟩
  | none =>
    match w.cmdWait with
    | some err => ⟨t0 ++ [Event.cmdWait, println err], [], Ctl.osExit 1⟩
    | none => ⟨t0 ++ [Event.cmdWait, println "serve command executed."], [], Ctl.ret⟩

/-- The loop over `services` of case `serve` (main.go lines 178-192).  The
second component tells whether the loop ran to its end (`true`) or left through
`os.Exit(1)` (`false`). -/
def serveLoop : List String → List Event × Bool
  | [] => ([], true)
  | s :: rest =>
    if s = "api" then
      (Event.apiRun :: println "called api.Run()" :: (serveLoop rest).1, (serveLoop rest).2)
    else if s = "admin" then
      (Event.adminRun :: println "called admin.Run()" :: (serveLoop rest).1, (serveLoop rest).2)
    else
      ([println "To execute 'ponzu serve', you must specify which service to run.",
        println "$ ponzu --help"], false)

/-- The service step of case `serve` (main.go lines 174-193). -/
def serveServices (rest : List String) : List Event × Bool :=
  match rest with
  | [] => ([], true)
  | a :: _ =>
    let services := stringsSplit a ','
    (println ("configured to start services: " ++ fmtSlice services) :: (serveLoop services).1,
      (serveLoop services).2)

/-- The TLS step of case `serve` (main.go lines 203-217).  `cache` is the config
cache after the write of `https_port`.  The second component is `false` when
the type assertion `.(string)` on the cached value panics. -/
def serveTLS (f : Flags) (cache : List (String × String)) : List Event × Bool :=
  if f.devhttps then
    ([println "Enabling self-signed HTTPS... [DEV]",
      Event.goTlsEnableDev,
      println "Server listening on https://localhost:10443 for requests... [DEV]",
      println "----",
      println "If your browser rejects HTTPS requests, try allowing insecure connections on localhost.",
      println "on Chrome, visit chrome://flags/#allow-insecure-localhost"], true)
  else if f.https then
    match cacheGet cache "https_port" with
    | some v =>
      ([println "Enabling HTTPS...", Event.goTlsEnable, Event.configCache "https_port",
        Event.stdout ("Server listening on :" ++ v ++ " for HTTPS requests...\n")], true)
    | none =>
      ([println "Enabling HTTPS...", Event.goTlsEnable, Event.configCache "https_port"], false)
  else ([], true)

/-- Fatal log line of a failed config write (main.go lines 198, 223), without
the time stamp the logger puts first. -/
def saveFailed (err : String) : Event :=
  Event.logFatalln ("System failed to save config. Please try to run again. " ++ err)

/-- Case `serve`, `s` (main.go lines 165-228); `rest` is `args[1:]`. -/
def mainServe (w : World) (f : Flags) (rest : List String) : Body :=
  let defers := [Event.analyticsClose, Event.dbClose]
  let t0 := [Event.dbInit, println "called db.Init()", Event.analyticsInit,
    println "called analytics.Init()"]
  let sv := serveServices rest
  if sv.2 = false then ⟨t0 ++ sv.1, defers, Ctl.osExit 1⟩
  else
    let t1 := t0 ++ sv.1 ++ [Event.putConfig "https_port" (sprintfD f.httpsport)]
    match w.putConfig "https_port" (sprintfD f.httpsport) with
    | some err => ⟨t1 ++ [saveFailed err], defers, Ctl.osExit 1⟩
    | none =>
      let cache := cachePut w.config "https_port" (sprintfD f.httpsport)
      let tls := serveTLS f cache
      if tls.2 = false then
        ⟨t1 ++ [println "called db.PutConfig('https_port')"] ++ tls.1, defers, Ctl.panicked⟩
      else
        let t2 := t1 ++ [println "called db.PutConfig('https_port')"] ++ tls.1 ++
          [Event.putConfig "http_port" (sprintfD f.port)]
        match w.putConfig "http_port" (sprintfD f.port) with
        | some err => ⟨t2 ++ [saveFailed err], defers, Ctl.osExit 1⟩
        | none =>
          let t3 := t2 ++ [println "called db.PutConfig('http_port')",
            Event.listenAndServe (":" ++ sprintfD f.port)]
          match w.listenAndServe (":" ++ sprintfD f.port) with
          | some err => ⟨t3 ++ [Event.logFatalln err], defers, Ctl.osExit 1⟩
          | none => ⟨t3, defers, Ctl.blocked⟩

/-- Body of `main` after `flag.Parse` (main.go lines 48-237). -/
def mainBody (u : UsageTexts) (w : World) (inv : Invocation) : Body :=
  match inv.args with
  | [] => ⟨[println u.usage], [], Ctl.osExit 0⟩
  | verb :: rest =>
    if verb = "help" ∨ verb = "h" then mainHelp u rest
    else if verb = "new" then mainNew u w rest
    else if verb = "generate" ∨ verb = "gen" ∨ verb = "g" then mainGenerate u w rest
    else if verb = "build" then mainBuild w (verb :: rest)
    else if verb = "run" then mainRun w inv.flags rest
    else if verb = "serve" ∨ verb = "s" then mainServe w inv.flags rest
    else ⟨[println u.usage, println u.usageHelp], [], Ctl.ret⟩

/-- The process: the body of `main`, then the deferred calls when the body
returns or panics, and none of them when it left through `os.Exit`. -/
def main (u : UsageTexts) (w : World) (inv : Invocation) : Run :=
  let b := mainBody u w inv
  match b.ctl with
  | Ctl.osExit code => ⟨b.trace, Outcome.exit code⟩
  | Ctl.ret => ⟨b.trace ++ b.deferred, Outcome.exit 0⟩
  | Ctl.panicked => ⟨b.trace ++ b.deferred, Outcome.exit 2⟩
  | Ctl.blocked => ⟨b.trace, Outcome.serving⟩

/-! ## Observations on a run -/

/-- Output events: text on standard output or on the fatal log. -/
def Event.isOutput : Event → Bool
  | Event.stdout _ => true
  | Event.logFatalln _ => true
  | _ => false

/-- The calls on collaborators made during a run, in order. -/
def calls (t : List Event) : List Event :=
  t.filter (fun e => !e.isOutput)

/-- The text written to standard output during a run. -/
def stdoutText : List Event → String
  | [] => ""
  | Event.stdout s :: t => s ++ stdoutText t
  | _ :: t => stdoutText t

/-- A service name the loop of `serve` accepts. -/
def recognized (s : String) : Bool :=
  s = "api" ∨ s = "admin"

/-- The registrar call the loop of `serve` makes for an accepted name. -/
def activation (s : String) : Event :=
  if s = "api" then Event.apiRun else Event.adminRun

/-- A world in which every collaborator succeeds and the listener keeps serving. -/
def quietWorld : World :=
  { newProjectInDir := fun _ => none, generateContentType := fun _ => none,
    buildPonzuServer := fun _ => none, cmdStart := fun _ _ => none, cmdWait := none,
    putConfig := fun _ _ => none, config := [], listenAndServe := fun _ => none }

/-- Short stand-ins for the usage constants, used at concrete inputs. -/
def sampleUsage : UsageTexts :=
  { usageHeader := "ponzu\n", usageNew := "new\n", usageGenerate := "generate\n",
    usageBuild := "build\n", usageRun := "run\n", usageHelp := "help\n" }

/-- The service names given to `serve`: the fields of `args[1]`, or none when
there is no `args[1]`. -/
def listed (rest : List String) : List String :=
  match rest with
  | [] => []
  | a :: _ => stringsSplit a ','

/-- The calls of the TLS step, by TLS mode. -/
def tlsCalls (f : Flags) : List Event :=
  if f.devhttps then [Event.goTlsEnableDev]
  else if f.https then [Event.goTlsEnable, Event.configCache "https_port"]
  else []

/-- Calls of a service registrar. -/
def Event.isActivation : Event → Bool
  | Event.apiRun => true
  | Event.adminRun => true
  | _ => false

/-- The service activations of a run, in order. -/
def activations (t : List Event) : List Event :=
  t.filter Event.isActivation

/-- The calls of the serve sequence, step by step: each step is reached only
when the steps before it went through. -/
def serveCalls (w : World) (f : Flags) (rest : List String) : List Event :=
  [Event.dbInit, Event.analyticsInit] ++ ((listed rest).takeWhile recognized).map activation ++
    if (listed rest).all recognized then
      Event.putConfig "https_port" (sprintfD f.httpsport) ::
        (if (w.putConfig "https_port" (sprintfD f.httpsport)).isNone then
          tlsCalls f ++ Event.putConfig "http_port" (sprintfD f.port) ::
            (if (w.putConfig "http_port" (sprintfD f.port)).isNone then
              [Event.listenAndServe (":" ++ sprintfD f.port)]
            else [])
        else [])
    else []

/-- The end of the serve sequence: it keeps serving when every step went
through and the listener does not return, and exits with status 1 otherwise. -/
def serveOutcome (w : World) (f : Flags) (rest : List String) : Outcome :=
  if (listed rest).all recognized
      ∧ (w.putConfig "https_port" (sprintfD f.httpsport)).isNone
      ∧ (w.putConfig "http_port" (sprintfD f.port)).isNone
      ∧ (w.listenAndServe (":" ++ sprintfD f.port)).isNone
  then Outcome.serving else Outcome.exit 1

/-- The calls of the serve sequence as the specification lists them: the TLS
step contributes the launch of the task and nothing else. -/
def specServeCalls (f : Flags) (services : List String) : List Event :=
  [Event.dbInit, Event.analyticsInit] ++ services.map activation ++
    [Event.putConfig "https_port" (sprintfD f.httpsport)] ++
    (if f.devhttps then [Event.goTlsEnableDev] else if f.https then [Event.goTlsEnable] else []) ++
    [Event.putConfig "http_port" (sprintfD f.port), Event.listenAndServe (":" ++ sprintfD f.port)]

/-- A store that rejects the write of the given key. -/
def rejectingWorld (key : String) : World :=
  { quietWorld with putConfig := fun k _ => if k = key then some "write failed" else none }

/-- A world whose listener cannot bind. -/
def boundWorld : World :=
  { quietWorld with listenAndServe := fun _ => some "address already in use" }

/-- Value of a decimal digit character. -/
def digitValue (c : Char) : Nat :=
  c.toNat - 48

/-- The number a string of decimal digits denotes. -/
def decimalNat (cs : List Char) : Nat :=
  cs.foldl (fun a c => 10 * a + digitValue c) 0

/-- The integer a decimal numeral, with `-` for a negative one, denotes. -/
def decimalValue (s : String) : Int :=
  match s.data with
  | '-' :: cs => - (decimalNat cs : Int)
  | cs => (decimalNat cs : Int)

/-! ## Lemmas on the library model -/

theorem digitChar_value (k : Nat) (hk : k < 10) :
    digitValue (Nat.digitChar k) = k ∧ Nat.digitChar k ≠ '-' := by
  interval_cases k <;> decide

theorem decimalNat_snoc (cs : List Char) (c : Char) :
    decimalNat (cs ++ [c]) = 10 * decimalNat cs + digitValue c := by
  simp [decimalNat]

theorem toDigitsCore_decimal (fuel : Nat) : ∀ (n : Nat) (acc : List Char), n < fuel →
    ∃ pre, Nat.toDigitsCore 10 fuel n acc = pre ++ acc ∧ decimalNat pre = n
      ∧ pre.head? ≠ some '-' ∧ pre ≠ [] := by
  induction fuel with
  | zero => intro n acc h; omega
  | succ fuel ih =>
    intro n acc h
    have hd := digitChar_value (n % 10) (Nat.mod_lt _ (by decide))
    by_cases h0 : n / 10 = 0
    · refine ⟨[Nat.digitChar (n % 10)], ?_, ?_, ?_, by simp⟩
      · simp [Nat.toDigitsCore, h0]
      · have : n % 10 = n := by omega
        have h5 := hd.1
        simp only [decimalNat, List.foldl, Nat.mul_zero, Nat.zero_add]
        omega
      · simpa using hd.2
    · obtain ⟨pre, h1, h2, h3, h4⟩ := ih (n / 10) (Nat.digitChar (n % 10) :: acc) (by omega)
      refine ⟨pre ++ [Nat.digitChar (n % 10)], ?_, ?_, ?_, by simp⟩
      · simp [Nat.toDigitsCore, h0, h1]
      · rw [decimalNat_snoc, h2, hd.1]
        omega
      · cases pre with
        | nil => exact absurd rfl h4
        | cons c cs => simpa using h3

theorem repr_decimal (n : Nat) :
    decimalNat (Nat.repr n).data = n ∧ (Nat.repr n).data.head? ≠ some '-' := by
  obtain ⟨pre, h1, h2, h3, _⟩ := toDigitsCore_decimal (n + 1) n [] (by omega)
  have : (Nat.repr n).data = pre := by
    simp [Nat.repr, Nat.toDigits, h1, List.asString]
  rw [this]
  exact ⟨h2, h3⟩

/-- The rendering of `%d` reads back, as a decimal numeral, to the number. -/
theorem decimalValue_sprintfD (n : Int) : decimalValue (sprintfD n) = n := by
  cases n with
  | ofNat m =>
    obtain ⟨h1, h2⟩ := repr_decimal m
    unfold decimalValue sprintfD
    simp only
    split
    · rename_i cs hcs
      rw [hcs] at h2
      simp at h2
    · simp [h1]
  | negSucc m =>
    obtain ⟨h1, _⟩ := repr_decimal (m + 1)
    have : ("-" ++ Nat.repr (m + 1)).data = '-' :: (Nat.repr (m + 1)).data := by
      simp [String.data_append]
    unfold decimalValue sprintfD
    simp only [this, h1]
    simp [Int.negSucc_eq]

theorem cacheGet_cachePut (c : List (String × String)) (k v : String) :
    cacheGet (cachePut c k v) k = some v := by
  simp [cacheGet, cachePut]

theorem splitChars_snoc (sep : Char) (cs cur : List Char) :
    splitChars sep (cs ++ [sep]) cur = splitChars sep cs cur ++ [[]] := by
  induction cs generalizing cur with
  | nil => simp [splitChars]
  | cons c cs ih =>
    by_cases h : c = sep
    · simp [splitChars, h, ih]
    · simp [splitChars, h, ih]

theorem stringsSplit_empty : stringsSplit "" ',' = [""] := by
  decide

theorem stringsSplit_trailing (s : String) :
    stringsSplit (s ++ ",") ',' = stringsSplit s ',' ++ [""] := by
  have h : (s ++ ",").data = s.data ++ [','] := by
    simp [String.data_append]
  simp [stringsSplit, h, splitChars_snoc]

/-! ## Lemmas on the loop over the services -/

theorem recognized_iff (s : String) : recognized s = true ↔ s = "api" ∨ s = "admin" := by
  simp [recognized]

theorem calls_append (a b : List Event) : calls (a ++ b) = calls a ++ calls b := by
  simp [calls]

theorem calls_nil : calls [] = [] := rfl

theorem calls_cons (e : Event) (t : List Event) :
    calls (e :: t) = if e.isOutput = true then calls t else e :: calls t := by
  cases h : e.isOutput <;> simp [calls, h]

theorem calls_serveLoop (l : List String) :
    calls (serveLoop l).1 = (l.takeWhile recognized).map activation := by
  induction l with
  | nil => simp [serveLoop, calls]
  | cons s rest ih =>
    by_cases h1 : s = "api"
    · subst h1
      simpa [serveLoop, calls, recognized, activation, Event.isOutput, println] using ih
    · by_cases h2 : s = "admin"
      · subst h2
        simpa [serveLoop, calls, recognized, activation, Event.isOutput, println] using ih
      · simp [serveLoop, calls, recognized, h1, h2, Event.isOutput, println]

theorem serveLoop_ok (l : List String) :
    (serveLoop l).2 = true ↔ ∀ x ∈ l, recognized x = true := by
  induction l with
  | nil => simp [serveLoop]
  | cons s rest ih =>
    by_cases h1 : s = "api"
    · subst h1
      simpa [serveLoop, recognized] using ih
    · by_cases h2 : s = "admin"
      · subst h2
        simpa [serveLoop, recognized] using ih
      · simp [serveLoop, recognized, h1, h2]

theorem takeWhile_eq_self_iff (l : List String) :
    l.takeWhile recognized = l ↔ ∀ x ∈ l, recognized x = true := by
  induction l with
  | nil => simp
  | cons s rest ih =>
    by_cases h : recognized s = true
    · simp [List.takeWhile_cons, h, ih]
    · simp [List.takeWhile_cons, h]

theorem calls_serveServices (rest : List String) :
    calls (serveServices rest).1 = ((listed rest).takeWhile recognized).map activation := by
  cases rest with
  | nil => simp [serveServices, listed, calls]
  | cons a t =>
    simp only [serveServices, listed]
    rw [← calls_serveLoop]
    simp [calls, println, Event.isOutput]

theorem serveServices_ok (rest : List String) :
    (serveServices rest).2 = true ↔ ∀ x ∈ listed rest, recognized x = true := by
  cases rest with
  | nil => simp [serveServices, listed]
  | cons a t => simpa [serveServices, listed] using serveLoop_ok (stringsSplit a ',')

theorem calls_serveTLS (f : Flags) (c : List (String × String)) (v : String) :
    calls (serveTLS f (cachePut c "https_port" v)).1 = tlsCalls f
      ∧ (serveTLS f (cachePut c "https_port" v)).2 = true := by
  unfold serveTLS tlsCalls
  rw [cacheGet_cachePut]
  by_cases h1 : f.devhttps = true
  · simp [h1, calls, println, Event.isOutput]
  · by_cases h2 : f.https = true
    · simp [h1, h2, calls, println, Event.isOutput]
    · simp [h1, h2, calls]

/-! ## The serve sequence as a whole -/

theorem mainBody_serve (u : UsageTexts) (w : World) (f : Flags) (v : String)
    (rest : List String) (hv : v = "serve" ∨ v = "s") :
    mainBody u w ⟨f, v :: rest⟩ = mainServe w f rest := by
  rcases hv with h | h <;> subst h <;> simp [mainBody]

theorem mainServe_ctl (w : World) (f : Flags) (rest : List String) :
    (mainServe w f rest).ctl = Ctl.blocked ∧ serveOutcome w f rest = Outcome.serving
      ∨ (mainServe w f rest).ctl = Ctl.osExit 1 ∧ serveOutcome w f rest = Outcome.exit 1 := by
  have hok := serveServices_ok rest
  have htls := (calls_serveTLS f w.config (sprintfD f.httpsport)).2
  unfold mainServe serveOutcome
  by_cases hs : (serveServices rest).2 = true
  · have hall : (listed rest).all recognized = true := by
      simpa [List.all_eq_true] using hok.1 hs
    simp only [hs, hall, htls]
    cases h1 : w.putConfig "https_port" (sprintfD f.httpsport) with
    | some e => simp
    | none =>
      cases h2 : w.putConfig "http_port" (sprintfD f.port) with
      | some e => simp
      | none =>
        cases h3 : w.listenAndServe (":" ++ sprintfD f.port) with
        | some e => simp
        | none => simp
  · have hall : ¬ (listed rest).all recognized = true := by
      intro h
      exact hs (hok.2 (by simpa [List.all_eq_true] using h))
    simp [hs, hall]

theorem calls_mainServe (w : World) (f : Flags) (rest : List String) :
    calls (mainServe w f rest).trace = serveCalls w f rest := by
  have hok := serveServices_ok rest
  have hsv := calls_serveServices rest
  have htls := calls_serveTLS f w.config (sprintfD f.httpsport)
  unfold mainServe serveCalls
  by_cases hs : (serveServices rest).2 = true
  · have hall : (listed rest).all recognized = true := by
      simpa [List.all_eq_true] using hok.1 hs
    simp only [hs, hall, htls.2]
    cases h1 : w.putConfig "https_port" (sprintfD f.httpsport) with
    | some e =>
      simp [calls_append, calls_cons, calls_nil, hsv, Event.isOutput, println, saveFailed]
    | none =>
      cases h2 : w.putConfig "http_port" (sprintfD f.port) with
      | some e =>
        simp [calls_append, calls_cons, calls_nil, hsv, htls.1, Event.isOutput, println,
          saveFailed]
      | none =>
        cases h3 : w.listenAndServe (":" ++ sprintfD f.port) with
        | some e =>
          simp [calls_append, calls_cons, calls_nil, hsv, htls.1, Event.isOutput, println]
        | none =>
          simp [calls_append, calls_cons, calls_nil, hsv, htls.1, Event.isOutput, println]
  · have hall : ¬ (listed rest).all recognized = true := by
      intro h
      exact hs (hok.2 (by simpa [List.all_eq_true] using h))
    simp [hs, hall, calls_append, calls_cons, calls_nil, hsv, Event.isOutput, println]

/-- Every `serve` run: its calls and its end. -/
theorem main_serve (u : UsageTexts) (w : World) (f : Flags) (v : String)
    (rest : List String) (hv : v = "serve" ∨ v = "s") :
    calls (main u w ⟨f, v :: rest⟩).trace = serveCalls w f rest
      ∧ (main u w ⟨f, v :: rest⟩).outcome = serveOutcome w f rest := by
  have hb := mainBody_serve u w f v rest hv
  have hc := calls_mainServe w f rest
  unfold main
  simp only [hb]
  rcases mainServe_ctl w f rest with ⟨h1, h2⟩ | ⟨h1, h2⟩
  · simp [h1, h2, hc]
  · simp [h1, h2, hc]

theorem mem_calls (e : Event) (t : List Event) :
    e ∈ calls t ↔ e ∈ t ∧ e.isOutput = false := by
  simp [calls]

theorem mem_serveCalls (w : World) (f : Flags) (rest : List String) (e : Event)
    (h : e ∈ serveCalls w f rest) :
    e = Event.dbInit ∨ e = Event.analyticsInit ∨ e = Event.apiRun ∨ e = Event.adminRun
      ∨ ((listed rest).all recognized = true
          ∧ (e = Event.putConfig "https_port" (sprintfD f.httpsport)
            ∨ (w.putConfig "https_port" (sprintfD f.httpsport) = none
              ∧ (e ∈ tlsCalls f ∨ e = Event.putConfig "http_port" (sprintfD f.port)
                ∨ e = Event.listenAndServe (":" ++ sprintfD f.port))))) := by
  unfold serveCalls at h
  rw [List.mem_append, List.mem_append] at h
  rcases h with (h | h) | h
  · simp at h
    tauto
  · rw [List.mem_map] at h
    obtain ⟨x, _, hx⟩ := h
    unfold activation at hx
    split at hx <;> simp [← hx]
  · by_cases hall : (listed rest).all recognized = true
    · rw [if_pos hall] at h
      refine Or.inr (Or.inr (Or.inr (Or.inr ⟨hall, ?_⟩)))
      rw [List.mem_cons] at h
      rcases h with h | h
      · exact Or.inl h
      · right
        cases h1 : w.putConfig "https_port" (sprintfD f.httpsport) with
        | some e1 => simp [h1] at h
        | none =>
          refine ⟨rfl, ?_⟩
          simp only [h1, Option.isNone_none, if_true, List.mem_append, List.mem_cons] at h
          rcases h with h | h | h
          · exact Or.inl h
          · exact Or.inr (Or.inl h)
          · right; right
            split at h
            · simpa using h
            · simp at h
    · rw [if_neg hall] at h
      simp at h

/-! ## Properties of the dispatcher and of the serve sequence -/

/-- C1, as stated, fails in production TLS mode: for `--https serve api` with
both config writes succeeding, the calls made by `main` are not the listed
ones, because `db.ConfigCache("https_port")` is called between the launch of
`tls.Enable` and `PutConfig("http_port", ..)`. -/
theorem C1_production_mode_reads_cache :
    calls (main sampleUsage quietWorld
        ⟨{ defaultFlags with https := true }, ["serve", "api"]⟩).trace
      = [Event.dbInit, Event.analyticsInit, Event.apiRun, Event.putConfig "https_port" "443",
          Event.goTlsEnable, Event.configCache "https_port", Event.putConfig "http_port" "8080",
          Event.listenAndServe ":8080"]
    ∧ calls (main sampleUsage quietWorld
        ⟨{ defaultFlags with https := true }, ["serve", "api"]⟩).trace
      ≠ specServeCalls { defaultFlags with https := true } ["api"] := by
  decide

/-- C1 (amended): for every `serve` invocation whose listed services are all
recognized and whose two config writes succeed, the calls made by `main` are
exactly db.Init, analytics.Init, one activation per listed service in the order
listed, PutConfig("https_port", ..), the calls of the TLS step (the launch of
tls.EnableDev under devhttps; otherwise, under https, the launch of tls.Enable
followed by one db.ConfigCache("https_port") read; otherwise nothing),
PutConfig("http_port", ..) and the http.ListenAndServe attempt, in this order
in all three TLS modes.  Outside production mode this is the list of the
specification. -/
theorem C1_serve_call_order (u : UsageTexts) (w : World) (f : Flags) (v : String)
    (rest : List String) (hv : v = "serve" ∨ v = "s")
    (hrec : ∀ x ∈ listed rest, recognized x = true)
    (h1 : w.putConfig "https_port" (sprintfD f.httpsport) = none)
    (h2 : w.putConfig "http_port" (sprintfD f.port) = none) :
    calls (main u w ⟨f, v :: rest⟩).trace
      = [Event.dbInit, Event.analyticsInit] ++ (listed rest).map activation ++
          [Event.putConfig "https_port" (sprintfD f.httpsport)] ++
          (if f.devhttps then [Event.goTlsEnableDev]
            else if f.https then [Event.goTlsEnable, Event.configCache "https_port"]
            else []) ++
          [Event.putConfig "http_port" (sprintfD f.port),
            Event.listenAndServe (":" ++ sprintfD f.port)]
    ∧ ((f.devhttps = true ∨ f.https = false) →
        calls (main u w ⟨f, v :: rest⟩).trace = specServeCalls f (listed rest)) := by
  have hm := (main_serve u w f v rest hv).1
  have hall : (listed rest).all recognized = true := by
    simpa [List.all_eq_true] using hrec
  have htw : (listed rest).takeWhile recognized = listed rest :=
    (takeWhile_eq_self_iff _).2 hrec
  have key : calls (main u w ⟨f, v :: rest⟩).trace
      = [Event.dbInit, Event.analyticsInit] ++ (listed rest).map activation ++
          [Event.putConfig "https_port" (sprintfD f.httpsport)] ++ tlsCalls f ++
          [Event.putConfig "http_port" (sprintfD f.port),
            Event.listenAndServe (":" ++ sprintfD f.port)] := by
    rw [hm]
    simp [serveCalls, hall, htw, h1, h2]
  refine ⟨by simpa [tlsCalls] using key, ?_⟩
  intro hmode
  rw [key]
  unfold specServeCalls tlsCalls
  rcases hmode with h | h <;> simp [h]

/-- Instance of C1 (amended): `--https serve admin,api` with a store that accepts
both writes. -/
theorem C1_serve_call_order_witness :
    calls (main sampleUsage quietWorld
        ⟨{ defaultFlags with https := true }, ["serve", "admin,api"]⟩).trace
      = [Event.dbInit, Event.analyticsInit, Event.adminRun, Event.apiRun,
          Event.putConfig "https_port" "443", Event.goTlsEnable,
          Event.configCache "https_port", Event.putConfig "http_port" "8080",
          Event.listenAndServe ":8080"] :=
  (C1_serve_call_order sampleUsage quietWorld { defaultFlags with https := true } "serve"
    ["admin,api"] (Or.inl rfl) (by decide) rfl rfl).1

/-- C2: a `serve` invocation whose service list holds a name other than `api`
and `admin` ends with exit status 1, and its trace holds no PutConfig call
(under any key), no launch of a TLS task and no http.ListenAndServe attempt. -/
theorem C2_unrecognized_service_exits_early (u : UsageTexts) (w : World) (f : Flags)
    (v a : String) (more : List String) (hv : v = "serve" ∨ v = "s")
    (hbad : ∃ x ∈ stringsSplit a ',', x ≠ "api" ∧ x ≠ "admin") :
    (main u w ⟨f, v :: a :: more⟩).outcome = Outcome.exit 1
    ∧ ∀ e ∈ (main u w ⟨f, v :: a :: more⟩).trace,
        (∀ k x, e ≠ Event.putConfig k x) ∧ e ≠ Event.goTlsEnableDev ∧ e ≠ Event.goTlsEnable
          ∧ ∀ addr, e ≠ Event.listenAndServe addr := by
  obtain ⟨hc, ho⟩ := main_serve u w f v (a :: more) hv
  have hall : ¬ (listed (a :: more)).all recognized = true := by
    intro h
    obtain ⟨x, hx, h1, h2⟩ := hbad
    have := (List.all_eq_true.1 h) x (by simpa [listed] using hx)
    rw [recognized_iff] at this
    tauto
  constructor
  · rw [ho]
    simp [serveOutcome, hall]
  · intro e he
    have hmem : e.isOutput = false → e = Event.dbInit ∨ e = Event.analyticsInit
        ∨ e = Event.apiRun ∨ e = Event.adminRun := by
      intro hout
      have h1 : e ∈ calls (main u w ⟨f, v :: a :: more⟩).trace := (mem_calls _ _).2 ⟨he, hout⟩
      rw [hc] at h1
      rcases mem_serveCalls w f _ e h1 with h | h | h | h | ⟨h, _⟩
      · exact Or.inl h
      · exact Or.inr (Or.inl h)
      · exact Or.inr (Or.inr (Or.inl h))
      · exact Or.inr (Or.inr (Or.inr h))
      · exact absurd h hall
    refine ⟨?_, ?_, ?_, ?_⟩
    · intro k x hk
      subst hk
      simpa using hmem rfl
    · intro hk
      subst hk
      simpa using hmem rfl
    · intro hk
      subst hk
      simpa using hmem rfl
    · intro addr hk
      subst hk
      simpa using hmem rfl

/-- Instance of C2: `serve admin,api,bogus`. -/
theorem C2_unrecognized_service_exits_early_witness :
    (main sampleUsage quietWorld ⟨defaultFlags, ["serve", "admin,api,bogus"]⟩).outcome
        = Outcome.exit 1
    ∧ ∀ e ∈ (main sampleUsage quietWorld ⟨defaultFlags, ["serve", "admin,api,bogus"]⟩).trace,
        (∀ k x, e ≠ Event.putConfig k x) ∧ e ≠ Event.goTlsEnableDev ∧ e ≠ Event.goTlsEnable
          ∧ ∀ addr, e ≠ Event.listenAndServe addr :=
  C2_unrecognized_service_exits_early sampleUsage quietWorld defaultFlags "serve"
    "admin,api,bogus" [] (Or.inl rfl) ⟨"bogus", by decide, by decide, by decide⟩

/-- C3, as stated, fails for runs that stop before the TLS step: with devhttps
set, `serve bogus` exits at the unrecognized name, and `serve api` against a
store that rejects the write of `https_port` exits at that write; in both
tls.EnableDev is not launched.  Likewise with https set and tls.Enable. -/
theorem C3_no_launch_before_tls_step :
    ({ defaultFlags with devhttps := true } : Flags).devhttps = true
    ∧ Event.goTlsEnableDev ∉ (main sampleUsage quietWorld
        ⟨{ defaultFlags with devhttps := true }, ["serve", "bogus"]⟩).trace
    ∧ (main sampleUsage quietWorld
        ⟨{ defaultFlags with devhttps := true }, ["serve", "bogus"]⟩).outcome = Outcome.exit 1
    ∧ Event.goTlsEnableDev ∉ (main sampleUsage (rejectingWorld "https_port")
        ⟨{ defaultFlags with devhttps := true }, ["serve", "api"]⟩).trace
    ∧ Event.goTlsEnable ∉ (main sampleUsage quietWorld
        ⟨{ defaultFlags with https := true }, ["serve", "bogus"]⟩).trace := by
  decide

/-- C3 (amended): in every `serve` run, for all four combinations of the flags,
the two TLS modes exclude each other with devhttps precedence: under devhttps
tls.Enable is not launched, whatever https is; without devhttps tls.EnableDev
is not launched; without https and without devhttps neither is launched; and a
run that stops before the TLS step (an unrecognized service name, a rejected
write of `https_port`) launches neither.  In a run that reaches the TLS step
(recognized services, the write of `https_port` accepted) the resolved task is
launched: tls.EnableDev under devhttps, also when https is set as well;
tls.Enable under https without devhttps. -/
theorem C3_tls_mode_resolution (u : UsageTexts) (w : World) (f : Flags) (v : String)
    (rest : List String) (hv : v = "serve" ∨ v = "s") :
    (f.devhttps = true → Event.goTlsEnable ∉ (main u w ⟨f, v :: rest⟩).trace)
    ∧ (f.devhttps = false → Event.goTlsEnableDev ∉ (main u w ⟨f, v :: rest⟩).trace)
    ∧ (f.devhttps = false → f.https = false →
        Event.goTlsEnable ∉ (main u w ⟨f, v :: rest⟩).trace
          ∧ Event.goTlsEnableDev ∉ (main u w ⟨f, v :: rest⟩).trace)
    ∧ ¬ (Event.goTlsEnableDev ∈ (main u w ⟨f, v :: rest⟩).trace
          ∧ Event.goTlsEnable ∈ (main u w ⟨f, v :: rest⟩).trace)
    ∧ ((¬ (∀ x ∈ listed rest, recognized x = true)
          ∨ (w.putConfig "https_port" (sprintfD f.httpsport)).isSome = true) →
        Event.goTlsEnable ∉ (main u w ⟨f, v :: rest⟩).trace
          ∧ Event.goTlsEnableDev ∉ (main u w ⟨f, v :: rest⟩).trace)
    ∧ ((∀ x ∈ listed rest, recognized x = true) →
        w.putConfig "https_port" (sprintfD f.httpsport) = none →
        (f.devhttps = true → Event.goTlsEnableDev ∈ (main u w ⟨f, v :: rest⟩).trace)
        ∧ (f.devhttps = false → f.https = true →
            Event.goTlsEnable ∈ (main u w ⟨f, v :: rest⟩).trace)) := by
  have hout : ∀ (e : Event), (e = Event.goTlsEnable ∨ e = Event.goTlsEnableDev) →
      e ∈ (main u w ⟨f, v :: rest⟩).trace →
      e ∈ tlsCalls f ∧ (listed rest).all recognized = true
        ∧ w.putConfig "https_port" (sprintfD f.httpsport) = none := by
    intro e hk he
    have h2 : e ∈ calls (main u w ⟨f, v :: rest⟩).trace :=
      (mem_calls _ _).2 ⟨he, by rcases hk with h | h <;> subst h <;> rfl⟩
    rw [(main_serve u w f v rest hv).1] at h2
    rcases hk with h | h <;> subst h <;>
      rcases mem_serveCalls w f _ _ h2 with h | h | h | h | ⟨ha, h | ⟨hp, h | h | h⟩⟩ <;>
      first | exact ⟨h, ha, hp⟩ | simp at h
  refine ⟨?_, ?_, ?_, ?_, ?_, ?_⟩
  · intro hd h
    have := (hout _ (Or.inl rfl) h).1
    simp [tlsCalls, hd] at this
  · intro hd h
    have := (hout _ (Or.inr rfl) h).1
    cases hs : f.https <;> simp [tlsCalls, hd, hs] at this
  · intro hd hs
    refine ⟨fun h => ?_, fun h => ?_⟩
    · have := (hout _ (Or.inl rfl) h).1
      simp [tlsCalls, hd, hs] at this
    · have := (hout _ (Or.inr rfl) h).1
      simp [tlsCalls, hd, hs] at this
  · rintro ⟨ha, hb⟩
    have h3 := (hout _ (Or.inr rfl) ha).1
    have h4 := (hout _ (Or.inl rfl) hb).1
    cases hd : f.devhttps <;> simp [tlsCalls, hd] at h3 h4
  · intro hstop
    have key : ∀ e, (e = Event.goTlsEnable ∨ e = Event.goTlsEnableDev) →
        e ∉ (main u w ⟨f, v :: rest⟩).trace := by
      intro e hk he
      obtain ⟨-, hall, hp⟩ := hout e hk he
      rcases hstop with h | h
      · exact h (by simpa [List.all_eq_true] using hall)
      · simp [hp] at h
    exact ⟨key _ (Or.inl rfl), key _ (Or.inr rfl)⟩
  · intro hrec h1
    have hall : (listed rest).all recognized = true := by
      simpa [List.all_eq_true] using hrec
    have hin : ∀ e, e.isOutput = false → e ∈ tlsCalls f →
        e ∈ (main u w ⟨f, v :: rest⟩).trace := by
      intro e ho he
      have : e ∈ calls (main u w ⟨f, v :: rest⟩).trace := by
        rw [(main_serve u w f v rest hv).1]
        simp [serveCalls, hall, h1, he]
      exact ((mem_calls _ _).1 this).1
    refine ⟨fun hd => hin _ rfl (by simp [tlsCalls, hd]), fun hd hs => ?_⟩
    exact hin _ rfl (by simp [tlsCalls, hd, hs])

/-- Instance of C3 (amended): `--devhttps --https serve api` launches the
development task and not the production one. -/
theorem C3_tls_mode_resolution_witness :
    Event.goTlsEnableDev ∈ (main sampleUsage quietWorld
        ⟨{ defaultFlags with https := true, devhttps := true }, ["serve", "api"]⟩).trace
    ∧ Event.goTlsEnable ∉ (main sampleUsage quietWorld
        ⟨{ defaultFlags with https := true, devhttps := true }, ["serve", "api"]⟩).trace :=
  ⟨(C3_tls_mode_resolution sampleUsage quietWorld
      { defaultFlags with https := true, devhttps := true } "serve" ["api"]
      (Or.inl rfl)).2.2.2.2.2 (by decide) rfl |>.1 rfl,
    (C3_tls_mode_resolution sampleUsage quietWorld
      { defaultFlags with https := true, devhttps := true } "serve" ["api"]
      (Or.inl rfl)).1 rfl⟩

/-- C4: every `run` invocation spawns `./ponzu-server` once, with the argument
list `--port=<port>`, `--httpsport=<httpsport>`, the TLS flag, `serve`, the
service list: the ports in decimal, the TLS flag `--devhttps` under devhttps,
else `--https` under https, else `--https=false`, the service list the first
argument after `run` or else `admin,api`.  With the default flags and no
service argument the list is
`--port=8080 --httpsport=443 --https=false serve admin,api`.  The rendering of
a port is its decimal numeral: read back as one it gives the port. -/
theorem C4_run_child_arguments (u : UsageTexts) (w : World) (f : Flags) (rest : List String) :
    (calls (main u w ⟨f, "run" :: rest⟩).trace).head?
      = some (Event.cmdStart "./ponzu-server"
          ["--port=" ++ sprintfD f.port, "--httpsport=" ++ sprintfD f.httpsport,
            if f.devhttps then "--devhttps" else if f.https then "--https" else "--https=false",
            "serve",
            match rest with
            | s :: _ => s
            | [] => "admin,api"])
    ∧ (∀ name args, Event.cmdStart name args ∈ (main u w ⟨f, "run" :: rest⟩).trace →
        Event.cmdStart name args = Event.cmdStart "./ponzu-server"
          ["--port=" ++ sprintfD f.port, "--httpsport=" ++ sprintfD f.httpsport,
            if f.devhttps then "--devhttps" else if f.https then "--https" else "--https=false",
            "serve",
            match rest with
            | s :: _ => s
            | [] => "admin,api"])
    ∧ ((main u w ⟨f, "run" :: rest⟩).trace.count
        (Event.cmdStart "./ponzu-server" (runArgs f rest)) = 1)
    ∧ runArgs defaultFlags []
        = ["--port=8080", "--httpsport=443", "--https=false", "serve", "admin,api"]
    ∧ decimalValue (sprintfD f.port) = f.port
    ∧ decimalValue (sprintfD f.httpsport) = f.httpsport := by
  have hargs : runArgs f rest
      = ["--port=" ++ sprintfD f.port, "--httpsport=" ++ sprintfD f.httpsport,
          if f.devhttps then "--devhttps" else if f.https then "--https" else "--https=false",
          "serve",
          match rest with
          | s :: _ => s
          | [] => "admin,api"] := by
    unfold runArgs addTLS runServices
    cases f.devhttps <;> cases f.https <;> cases rest <;> simp
  rw [← hargs]
  have hb : mainBody u w ⟨f, "run" :: rest⟩ = mainRun w f rest := by
    simp [mainBody]
  refine ⟨?_, ?_, ?_, by decide, decimalValue_sprintfD _, decimalValue_sprintfD _⟩
  · unfold main
    rw [hb]
    unfold mainRun
    cases w.cmdStart "./ponzu-server" (runArgs f rest) with
    | some e => simp [calls, println, Event.isOutput]
    | none =>
      cases w.cmdWait with
      | some e => simp [calls, println, Event.isOutput]
      | none => simp [calls, println, Event.isOutput]
  · intro name args
    unfold main
    rw [hb]
    unfold mainRun
    cases w.cmdStart "./ponzu-server" (runArgs f rest) with
    | some e => simp [println]
    | none =>
      cases w.cmdWait with
      | some e => simp [println]
      | none => simp [println]
  · unfold main
    rw [hb]
    unfold mainRun
    cases w.cmdStart "./ponzu-server" (runArgs f rest) with
    | some e => simp [println, List.count_cons]
    | none =>
      cases w.cmdWait with
      | some e => simp [println, List.count_cons]
      | none => simp [println, List.count_cons]

/-- C5, evaluated on the code: no `serve` run calls db.Close (nor
analytics.Close).  Every `serve` run either keeps serving or leaves through
`os.Exit(1)`, directly or inside `log.Fatalln`, and the deferred closers do not
run on that path. -/
theorem C5_serve_never_closes_store (u : UsageTexts) (w : World) (f : Flags) (v : String)
    (rest : List String) (hv : v = "serve" ∨ v = "s") :
    (main u w ⟨f, v :: rest⟩).trace.count Event.dbClose = 0
    ∧ (main u w ⟨f, v :: rest⟩).trace.count Event.analyticsClose = 0
    ∧ ((main u w ⟨f, v :: rest⟩).outcome = Outcome.exit 1
        ∨ (main u w ⟨f, v :: rest⟩).outcome = Outcome.serving) := by
  obtain ⟨hc, ho⟩ := main_serve u w f v rest hv
  have hno : ∀ e, (e = Event.dbClose ∨ e = Event.analyticsClose) →
      e ∉ (main u w ⟨f, v :: rest⟩).trace := by
    intro e hk he
    have h2 : e ∈ calls (main u w ⟨f, v :: rest⟩).trace :=
      (mem_calls _ _).2 ⟨he, by rcases hk with h | h <;> subst h <;> rfl⟩
    rw [hc] at h2
    rcases hk with h | h <;> subst h <;>
      rcases mem_serveCalls w f _ _ h2 with h | h | h | h | ⟨_, h | ⟨_, h | h | h⟩⟩ <;>
      first
        | simp at h
        | (unfold tlsCalls at h; split at h <;> [skip; split at h] <;> simp at h)
  refine ⟨List.count_eq_zero.2 (hno _ (Or.inl rfl)), List.count_eq_zero.2 (hno _ (Or.inr rfl)),
    ?_⟩
  rw [ho]
  unfold serveOutcome
  split
  · exact Or.inr rfl
  · exact Or.inl rfl

/-- The three exits C5 names, evaluated: `serve bogus`, a rejected write of
`https_port`, a listener that cannot bind.  Each ends with status 1 and
without a call of db.Close. -/
theorem C5_serve_never_closes_store_witness :
    ((main sampleUsage quietWorld ⟨defaultFlags, ["serve", "bogus"]⟩).trace.count
          Event.dbClose = 0
      ∧ (main sampleUsage quietWorld ⟨defaultFlags, ["serve", "bogus"]⟩).outcome
          = Outcome.exit 1)
    ∧ ((main sampleUsage (rejectingWorld "https_port")
          ⟨defaultFlags, ["serve", "api"]⟩).trace.count Event.dbClose = 0
      ∧ (main sampleUsage (rejectingWorld "https_port")
          ⟨defaultFlags, ["serve", "api"]⟩).outcome = Outcome.exit 1)
    ∧ ((main sampleUsage boundWorld ⟨defaultFlags, ["serve", "api"]⟩).trace.count
          Event.dbClose = 0
      ∧ (main sampleUsage boundWorld ⟨defaultFlags, ["serve", "api"]⟩).outcome
          = Outcome.exit 1) :=
  ⟨⟨(C5_serve_never_closes_store sampleUsage quietWorld defaultFlags "serve" ["bogus"]
      (Or.inl rfl)).1, by decide⟩,
    ⟨(C5_serve_never_closes_store sampleUsage (rejectingWorld "https_port") defaultFlags "serve"
      ["api"] (Or.inl rfl)).1, by decide⟩,
    ⟨(C5_serve_never_closes_store sampleUsage boundWorld defaultFlags "serve" ["api"]
      (Or.inl rfl)).1, by decide⟩⟩

/-- C6, as stated, fails: for `help` without a second argument the text on
standard output is not the text printed when no verb is given; the line of
`usageHelp` comes first. -/
theorem C6_help_output_differs :
    stdoutText (main sampleUsage quietWorld ⟨defaultFlags, ["help"]⟩).trace
      = "help\n\nponzu\nnew\ngenerate\nbuild\nrun\n\n"
    ∧ stdoutText (main sampleUsage quietWorld ⟨defaultFlags, []⟩).trace
      = "ponzu\nnew\ngenerate\nbuild\nrun\n\n"
    ∧ stdoutText (main sampleUsage quietWorld ⟨defaultFlags, ["help"]⟩).trace
      ≠ stdoutText (main sampleUsage quietWorld ⟨defaultFlags, []⟩).trace
    ∧ ¬ ∃ u : UsageTexts, stdoutText (main u quietWorld ⟨defaultFlags, ["help"]⟩).trace
        = stdoutText (main u quietWorld ⟨defaultFlags, []⟩).trace := by
  refine ⟨by decide, by decide, by decide, ?_⟩
  rintro ⟨u, hu⟩
  have hlen := congrArg String.length hu
  simp [main, mainBody, mainHelp, stdoutText, println, String.length_append] at hlen
  have h1 : ("\n" : String).length = 1 := by decide
  omega

/-- C6 (amended): for verb `help` or `h` without a second argument the process
prints `usageHelp` and then the top-level usage banner `usage`, each with
`fmt.Println`, does nothing else, and exits with status 0; the banner part is
what an invocation without verb prints. -/
theorem C6_help_prints_help_then_usage (u : UsageTexts) (w : World) (f : Flags) (v : String)
    (hv : v = "help" ∨ v = "h") :
    (main u w ⟨f, [v]⟩).trace = [println u.usageHelp, println u.usage]
    ∧ (main u w ⟨f, [v]⟩).outcome = Outcome.exit 0
    ∧ stdoutText (main u w ⟨f, [v]⟩).trace
        = (u.usageHelp ++ "\n") ++ stdoutText (main u w ⟨f, []⟩).trace
    ∧ stdoutText (main u w ⟨f, []⟩).trace = u.usage ++ "\n" := by
  rcases hv with h | h <;> subst h <;>
    simp [main, mainBody, mainHelp, stdoutText, println]

/-- Instance of C6 (amended): `ponzu h`. -/
theorem C6_help_prints_help_then_usage_witness :
    (main sampleUsage quietWorld ⟨defaultFlags, ["h"]⟩).trace
      = [println sampleUsage.usageHelp, println sampleUsage.usage]
    ∧ (main sampleUsage quietWorld ⟨defaultFlags, ["h"]⟩).outcome = Outcome.exit 0 :=
  ⟨(C6_help_prints_help_then_usage sampleUsage quietWorld defaultFlags "h" (Or.inr rfl)).1,
    (C6_help_prints_help_then_usage sampleUsage quietWorld defaultFlags "h" (Or.inr rfl)).2.1⟩

/-- C7: `new` without a directory writes the usage of `new` and a line end to
standard output (and nothing else), exits with status 0
and never calls newProjectInDir; `new dir ...` calls newProjectInDir once, with
`dir`, makes no other call, and exits with status 1 exactly when that call
returns an error, and with status 0 otherwise. -/
theorem C7_new_dispatch (u : UsageTexts) (w : World) (f : Flags) :
    ((main u w ⟨f, ["new"]⟩).trace = [println u.usageNew]
      ∧ stdoutText (main u w ⟨f, ["new"]⟩).trace = u.usageNew ++ "\n"
      ∧ (main u w ⟨f, ["new"]⟩).outcome = Outcome.exit 0
      ∧ ∀ d, Event.newProjectInDir d ∉ (main u w ⟨f, ["new"]⟩).trace)
    ∧ ∀ (dir : String) (more : List String),
        calls (main u w ⟨f, "new" :: dir :: more⟩).trace = [Event.newProjectInDir dir]
        ∧ ((main u w ⟨f, "new" :: dir :: more⟩).outcome = Outcome.exit 1
            ↔ (w.newProjectInDir dir).isSome = true)
        ∧ ((main u w ⟨f, "new" :: dir :: more⟩).outcome = Outcome.exit 0
            ↔ w.newProjectInDir dir = none) := by
  refine ⟨?_, ?_⟩
  · simp [main, mainBody, mainNew, println, stdoutText]
  · intro dir more
    cases h : w.newProjectInDir dir with
    | some e => simp [main, mainBody, mainNew, h, calls, println, Event.isOutput]
    | none => simp [main, mainBody, mainNew, h, calls, Event.isOutput]

/-- C8: in a `serve` run that reaches the config writes (recognized services),
a rejected write of `https_port` ends the process with status 1 right after
that call, so that no TLS task is launched, `http_port` is not written and the
listener is not bound; a rejected write of `http_port` (after an accepted write
of `https_port`) ends the process with status 1 right after that call, so that
the listener is not bound.  The calls are PutConfig("https_port", d(httpsport))
and PutConfig("http_port", d(port)), where d(n) is the decimal numeral of n:
read back as one it gives n. -/
theorem C8_config_write_failure_is_fatal (u : UsageTexts) (w : World) (f : Flags) (v : String)
    (rest : List String) (hv : v = "serve" ∨ v = "s")
    (hrec : ∀ x ∈ listed rest, recognized x = true) :
    ((w.putConfig "https_port" (sprintfD f.httpsport)).isSome = true →
        (main u w ⟨f, v :: rest⟩).outcome = Outcome.exit 1
        ∧ calls (main u w ⟨f, v :: rest⟩).trace
          = [Event.dbInit, Event.analyticsInit] ++ (listed rest).map activation ++
              [Event.putConfig "https_port" (sprintfD f.httpsport)])
    ∧ (w.putConfig "https_port" (sprintfD f.httpsport) = none →
        (w.putConfig "http_port" (sprintfD f.port)).isSome = true →
        (main u w ⟨f, v :: rest⟩).outcome = Outcome.exit 1
        ∧ calls (main u w ⟨f, v :: rest⟩).trace
          = [Event.dbInit, Event.analyticsInit] ++ (listed rest).map activation ++
              [Event.putConfig "https_port" (sprintfD f.httpsport)] ++ tlsCalls f ++
              [Event.putConfig "http_port" (sprintfD f.port)])
    ∧ decimalValue (sprintfD f.httpsport) = f.httpsport
    ∧ decimalValue (sprintfD f.port) = f.port := by
  obtain ⟨hc, ho⟩ := main_serve u w f v rest hv
  have hall : (listed rest).all recognized = true := by
    simpa [List.all_eq_true] using hrec
  have htw : (listed rest).takeWhile recognized = listed rest :=
    (takeWhile_eq_self_iff _).2 hrec
  rw [hc, ho]
  refine ⟨?_, ?_, decimalValue_sprintfD _, decimalValue_sprintfD _⟩
  · intro h1
    have h1n : (w.putConfig "https_port" (sprintfD f.httpsport)).isNone = false := by
      cases hh : w.putConfig "https_port" (sprintfD f.httpsport) <;> simp [hh] at h1 ⊢
    simp [serveOutcome, serveCalls, hall, htw, h1n]
  · intro h1 h2
    have h2n : (w.putConfig "http_port" (sprintfD f.port)).isNone = false := by
      cases hh : w.putConfig "http_port" (sprintfD f.port) <;> simp [hh] at h2 ⊢
    simp [serveOutcome, serveCalls, hall, htw, h1, h2n]

/-- Instances of C8: `serve admin` with default ports against a store that
rejects `https_port`, and against a store that rejects `http_port`. -/
theorem C8_config_write_failure_is_fatal_witness :
    ((main sampleUsage (rejectingWorld "https_port") ⟨defaultFlags, ["serve", "admin"]⟩).outcome
        = Outcome.exit 1
      ∧ calls (main sampleUsage (rejectingWorld "https_port")
          ⟨defaultFlags, ["serve", "admin"]⟩).trace
        = [Event.dbInit, Event.analyticsInit, Event.adminRun,
            Event.putConfig "https_port" "443"])
    ∧ ((main sampleUsage (rejectingWorld "http_port") ⟨defaultFlags, ["serve", "admin"]⟩).outcome
        = Outcome.exit 1
      ∧ calls (main sampleUsage (rejectingWorld "http_port")
          ⟨defaultFlags, ["serve", "admin"]⟩).trace
        = [Event.dbInit, Event.analyticsInit, Event.adminRun,
            Event.putConfig "https_port" "443", Event.putConfig "http_port" "8080"]) :=
  ⟨(C8_config_write_failure_is_fatal sampleUsage (rejectingWorld "https_port") defaultFlags
      "serve" ["admin"] (Or.inl rfl) (by decide)).1 (by decide),
    (C8_config_write_failure_is_fatal sampleUsage (rejectingWorld "http_port") defaultFlags
      "serve" ["admin"] (Or.inl rfl) (by decide)).2.1 (by decide) (by decide)⟩

/-- C9: `serve` without an argument after the verb calls neither api.Run nor
admin.Run and does not stop at the service step: the calls start with db.Init,
analytics.Init, PutConfig("https_port", ..), and when both config writes are
accepted they go on with the TLS step, PutConfig("http_port", ..) and the
http.ListenAndServe attempt. -/
theorem C9_serve_without_services (u : UsageTexts) (w : World) (f : Flags) (v : String)
    (hv : v = "serve" ∨ v = "s") :
    Event.apiRun ∉ (main u w ⟨f, [v]⟩).trace
    ∧ Event.adminRun ∉ (main u w ⟨f, [v]⟩).trace
    ∧ (calls (main u w ⟨f, [v]⟩).trace).take 3
        = [Event.dbInit, Event.analyticsInit,
            Event.putConfig "https_port" (sprintfD f.httpsport)]
    ∧ (w.putConfig "https_port" (sprintfD f.httpsport) = none →
        w.putConfig "http_port" (sprintfD f.port) = none →
        calls (main u w ⟨f, [v]⟩).trace
          = [Event.dbInit, Event.analyticsInit,
              Event.putConfig "https_port" (sprintfD f.httpsport)] ++ tlsCalls f ++
            [Event.putConfig "http_port" (sprintfD f.port),
              Event.listenAndServe (":" ++ sprintfD f.port)]) := by
  obtain ⟨hc, -⟩ := main_serve u w f v [] hv
  have hno : ∀ e, (e = Event.apiRun ∨ e = Event.adminRun) → e ∉ (main u w ⟨f, [v]⟩).trace := by
    intro e hk he
    have h2 : e ∈ calls (main u w ⟨f, [v]⟩).trace :=
      (mem_calls _ _).2 ⟨he, by rcases hk with h | h <;> subst h <;> rfl⟩
    rw [hc] at h2
    unfold serveCalls tlsCalls at h2
    rcases hk with h | h <;> subst h <;>
      (simp [listed] at h2; repeat' split at h2) <;> simp at h2
  refine ⟨hno _ (Or.inl rfl), hno _ (Or.inr rfl), ?_, ?_⟩
  · rw [hc]
    simp [serveCalls, listed]
  · intro h1 h2
    rw [hc]
    simp [serveCalls, listed, h1, h2]

/-- Instance of C9: `ponzu serve` with the default flags. -/
theorem C9_serve_without_services_witness :
    Event.apiRun ∉ (main sampleUsage quietWorld ⟨defaultFlags, ["serve"]⟩).trace
    ∧ Event.adminRun ∉ (main sampleUsage quietWorld ⟨defaultFlags, ["serve"]⟩).trace
    ∧ calls (main sampleUsage quietWorld ⟨defaultFlags, ["serve"]⟩).trace
        = [Event.dbInit, Event.analyticsInit, Event.putConfig "https_port" "443",
            Event.putConfig "http_port" "8080", Event.listenAndServe ":8080"] :=
  ⟨(C9_serve_without_services sampleUsage quietWorld defaultFlags "serve" (Or.inl rfl)).1,
    (C9_serve_without_services sampleUsage quietWorld defaultFlags "serve" (Or.inl rfl)).2.1,
    (C9_serve_without_services sampleUsage quietWorld defaultFlags "serve"
      (Or.inl rfl)).2.2.2 rfl rfl⟩

theorem activations_calls (t : List Event) : activations (calls t) = activations t := by
  unfold activations calls
  rw [List.filter_filter]
  congr 1
  funext e
  cases e <;> rfl

theorem activations_map_activation (l : List String) :
    activations (l.map activation) = l.map activation := by
  unfold activations
  rw [List.filter_eq_self]
  intro e he
  rw [List.mem_map] at he
  obtain ⟨x, _, hx⟩ := he
  unfold activation at hx
  split at hx <;> subst hx <;> rfl

theorem activations_serveCalls (w : World) (f : Flags) (rest : List String) :
    activations (serveCalls w f rest) = ((listed rest).takeWhile recognized).map activation := by
  have happ : ∀ a b : List Event, activations (a ++ b) = activations a ++ activations b := by
    intro a b
    simp [activations]
  have htls : activations (tlsCalls f) = [] := by
    unfold tlsCalls
    cases f.devhttps <;> cases f.https <;> rfl
  unfold serveCalls
  rw [happ, happ, activations_map_activation]
  have h0 : activations [Event.dbInit, Event.analyticsInit] = [] := rfl
  rw [h0]
  by_cases hall : (listed rest).all recognized = true
  · rw [if_pos hall]
    cases h1 : w.putConfig "https_port" (sprintfD f.httpsport) with
    | some e => simp [activations, Event.isActivation]
    | none =>
      cases h2 : w.putConfig "http_port" (sprintfD f.port) with
      | some e =>
        have : activations (tlsCalls f ++ [Event.putConfig "http_port" (sprintfD f.port)])
            = [] := by
          rw [happ, htls]; rfl
        simp [activations, Event.isActivation] at this ⊢
        exact this
      | none =>
        have : activations (tlsCalls f ++ [Event.putConfig "http_port" (sprintfD f.port),
            Event.listenAndServe (":" ++ sprintfD f.port)]) = [] := by
          rw [happ, htls]; rfl
        simp [activations, Event.isActivation] at this ⊢
        exact this
  · rw [if_neg hall]
    simp [activations]

/-- C10: for `serve s ...` the service activations are, in order and with
repetitions, the activations of the longest initial run of `strings.Split(s, ",")`
made of `api` and `admin` only; the process exits with status 1 right after
them (its calls being db.Init, analytics.Init and these activations) exactly
when that run is not the whole list.  A trailing comma leaves an empty last
name, and so does the empty argument: both runs end with status 1, after the
activations of the names before. -/
theorem C10_activations_before_exit (u : UsageTexts) (w : World) (f : Flags) (v s : String)
    (more : List String) (hv : v = "serve" ∨ v = "s") :
    activations (main u w ⟨f, v :: s :: more⟩).trace
      = ((stringsSplit s ',').takeWhile recognized).map activation
    ∧ ((calls (main u w ⟨f, v :: s :: more⟩).trace
          = [Event.dbInit, Event.analyticsInit]
              ++ ((stringsSplit s ',').takeWhile recognized).map activation
        ∧ (main u w ⟨f, v :: s :: more⟩).outcome = Outcome.exit 1)
      ↔ (stringsSplit s ',').takeWhile recognized ≠ stringsSplit s ',')
    ∧ stringsSplit "" ',' = [""]
    ∧ stringsSplit (s ++ ",") ',' = stringsSplit s ',' ++ [""]
    ∧ (main u w ⟨f, v :: (s ++ ",") :: more⟩).outcome = Outcome.exit 1
    ∧ (main u w ⟨f, v :: "" :: more⟩).outcome = Outcome.exit 1
    ∧ activations (main u w ⟨f, v :: "" :: more⟩).trace = [] := by
  obtain ⟨hc, ho⟩ := main_serve u w f v (s :: more) hv
  have hbad : ∀ l : List String, "" ∈ l → ¬ l.all recognized = true := by
    intro l hl h
    have := (List.all_eq_true.1 h) "" hl
    simp [recognized] at this
  refine ⟨?_, ?_, by decide, stringsSplit_trailing s, ?_, ?_, ?_⟩
  · rw [← activations_calls, hc, activations_serveCalls]
    rfl
  · rw [hc, ho]
    have hl : listed (s :: more) = stringsSplit s ',' := rfl
    rw [Ne, takeWhile_eq_self_iff, ← hl]
    by_cases hall : (listed (s :: more)).all recognized = true
    · have hrec : ∀ x ∈ listed (s :: more), recognized x = true := by
        simpa [List.all_eq_true] using hall
      constructor
      · rintro ⟨h1, -⟩
        unfold serveCalls at h1
        rw [if_pos hall] at h1
        simp at h1
      · intro h
        exact absurd hrec h
    · have hrec : ¬ ∀ x ∈ listed (s :: more), recognized x = true := by
        intro h
        exact hall (by simpa [List.all_eq_true] using h)
      simp [serveCalls, serveOutcome, hall, hrec]
  · rw [(main_serve u w f v ((s ++ ",") :: more) hv).2]
    have : ¬ (listed ((s ++ ",") :: more)).all recognized = true := by
      apply hbad
      simp [listed, stringsSplit_trailing]
    simp [serveOutcome, this]
  · rw [(main_serve u w f v ("" :: more) hv).2]
    have : ¬ (listed ("" :: more)).all recognized = true := by
      apply hbad
      simp [listed, stringsSplit_empty]
    simp [serveOutcome, this]
  · rw [← activations_calls, (main_serve u w f v ("" :: more) hv).1, activations_serveCalls]
    simp [listed, stringsSplit_empty, recognized]

/-- Instances of C10: `serve api,api` activates the API service twice;
`serve api,bogus,admin` and `serve api,` activate it once and exit with
status 1. -/
theorem C10_activations_before_exit_witness :
    activations (main sampleUsage quietWorld ⟨defaultFlags, ["serve", "api,api"]⟩).trace
        = [Event.apiRun, Event.apiRun]
    ∧ activations (main sampleUsage quietWorld
          ⟨defaultFlags, ["serve", "api,bogus,admin"]⟩).trace = [Event.apiRun]
    ∧ (main sampleUsage quietWorld ⟨defaultFlags, ["serve", "api,bogus,admin"]⟩).outcome
        = Outcome.exit 1
    ∧ (main sampleUsage quietWorld ⟨defaultFlags, ["serve", "api,"]⟩).outcome
        = Outcome.exit 1 :=
  ⟨(C10_activations_before_exit sampleUsage quietWorld defaultFlags "serve" "api,api" []
      (Or.inl rfl)).1,
    (C10_activations_before_exit sampleUsage quietWorld defaultFlags "serve" "api,bogus,admin" []
      (Or.inl rfl)).1,
    ((C10_activations_before_exit sampleUsage quietWorld defaultFlags "serve" "api,bogus,admin" []
      (Or.inl rfl)).2.1.2 (by decide)).2,
    (C10_activations_before_exit sampleUsage quietWorld defaultFlags "serve" "api" []
      (Or.inl rfl)).2.2.2.2.1⟩

end Ponzu
